import Mathlib

/-!
Shallow embedding of the default p2p networking backend of the repository:
the request manager (`src/p2p/src/net/default_backend/request_manager.rs`)
and the service handles (`src/p2p/src/net/default_backend/mod.rs`).

Rust `HashMap<K, V>` fields are embedded as functions `K → Option V`
(insert overwrites, remove deletes), `HashSet<K>` as `K → Bool`;
`&mut self` methods become state-passing functions returning the new
state together with the `Result`/`Option` value, exactly mirroring the
Rust control flow.  Opaque payload types (`message::Request`,
`message::Response`, addresses, peer info blobs) are embedded as `Nat`:
the backend never inspects them.
-/

namespace Backend

/-- Rust `types::PeerId`: opaque process-unique identifier. -/
abbrev PeerId := Nat

/-- Rust `types::RequestId`: 128-bit identifier; embedded as `Nat`. -/
abbrev RequestId := Nat

/-- Rust `error::PeerError` (the variants the embedded code constructs). -/
inductive PeerError
  | PeerAlreadyExists
  | PeerDoesntExist
  deriving DecidableEq

/-- Rust `error::PublishError`. -/
inductive PublishError
  | MessageTooLarge (actual : Nat) (max : Nat)
  deriving DecidableEq

/-- Network magic bytes: a 4-byte network identifier. -/
abbrev MagicBytes := Nat × Nat × Nat × Nat

/-- Rust `error::ProtocolError` (the variant the embedded code constructs). -/
inductive ProtocolError
  | DifferentNetwork (localMagic : MagicBytes) (remoteMagic : MagicBytes)
  deriving DecidableEq

/-- Rust `error::P2pError` (the variants reachable from the embedded code). -/
inductive P2pError
  | PeerError (e : PeerError)
  | PublishError (e : PublishError)
  | ProtocolError (e : ProtocolError)
  | ChannelClosed
  deriving DecidableEq

/-- Rust `types::Message` (request/response payloads opaque). -/
inductive Message
  | Request (request_id : RequestId) (request : Nat)
  | Response (request_id : RequestId) (response : Nat)
  deriving DecidableEq

/-- Rust `RequestManager` state: `ephemerals` maps each registered peer to its
set of active ephemeral IDs, `ephemeral` maps each ephemeral ID to the
remote peer ID / remote request ID pair. -/
structure RequestManager where
  ephemerals : PeerId → Option (RequestId → Bool)
  ephemeral : RequestId → Option (PeerId × RequestId)

/-- Rust `RequestManager::new` / `Default::default()`: both maps empty. -/
def RequestManager.new : RequestManager :=
  ⟨fun _ => none, fun _ => none⟩

/-- Rust `RequestManager::register_peer`: occupied entry fails with
`PeerAlreadyExists`, vacant entry gets an empty ephemeral set. -/
def RequestManager.register_peer (s : RequestManager) (peer_id : PeerId) :
    RequestManager × Except P2pError Unit :=
  match s.ephemerals peer_id with
  | some _ => (s, .error (.PeerError .PeerAlreadyExists))
  | none =>
      ({ s with ephemerals := fun q => if q = peer_id then some (fun _ => false) else s.ephemerals q },
       .ok ())

/-- Rust `RequestManager::unregister_peer`: removes the peer's ephemeral set
and every ephemeral ID it contained from the global map; a no-op when
the peer is absent. -/
def RequestManager.unregister_peer (s : RequestManager) (peer_id : PeerId) :
    RequestManager :=
  match s.ephemerals peer_id with
  | none => s
  | some es =>
      { ephemerals := fun q => if q = peer_id then none else s.ephemerals q,
        ephemeral := fun e => if es e then none else s.ephemeral e }

/-- Rust `RequestManager::make_request`: packages the caller-supplied request
ID with the payload; the manager state is not touched. -/
def RequestManager.make_request (s : RequestManager) (request_id : RequestId)
    (request : Nat) : RequestManager × Except P2pError Message :=
  (s, .ok (.Request request_id request))

/-- Rust `RequestManager::make_response`: `self.ephemeral.remove(request_id)`;
when mapped, returns the recorded peer and a response carrying the
remote's original request ID.  Note: only the global `ephemeral` map is
touched; the peer's `ephemerals` set is not updated. -/
def RequestManager.make_response (s : RequestManager) (request_id : RequestId)
    (response : Nat) : RequestManager × Option (PeerId × Message) :=
  match s.ephemeral request_id with
  | some (peer_id, remote_id) =>
      ({ s with ephemeral := fun e => if e = request_id then none else s.ephemeral e },
       some (peer_id, .Response remote_id response))
  | none => (s, none)

/-- Rust `RequestManager::register_request`.  The Rust code mints the new
ephemeral ID with `types::RequestId::new()`, whose source (`types.rs`)
is not part of the embedded tree; it is passed here as the explicit
argument `fresh` (Modelled from the spec: `RequestId` is a "128-bit
random identifier" and `register_request` "mints a fresh random
ephemeral ID"; freshness is a hypothesis of the theorems that need it). -/
def RequestManager.register_request (s : RequestManager) (peer_id : PeerId)
    (request_id : RequestId) (fresh : RequestId) :
    RequestManager × Except P2pError RequestId :=
  match s.ephemerals peer_id with
  | none => (s, .error (.PeerError .PeerDoesntExist))
  | some es =>
      ({ ephemerals := fun q =>
           if q = peer_id then some (fun e => if e = fresh then true else es e)
           else s.ephemerals q,
         ephemeral := fun e =>
           if e = fresh then some (peer_id, request_id) else s.ephemeral e },
       .ok fresh)

/-- Forward half of the two-map consistency invariant: every key of the
global `ephemeral` map is a member of the ephemeral set of the peer
recorded in its mapping. -/
def Inv (s : RequestManager) : Prop :=
  ∀ e p r, s.ephemeral e = some (p, r) →
    ∃ es, s.ephemerals p = some es ∧ es e = true

/-- Full two-map consistency invariant: an ephemeral ID is a key of the
global `ephemeral` map if and only if it is a member of the ephemeral
set of the peer recorded in that mapping (and set membership points
back to that mapping). -/
def InvIff (s : RequestManager) : Prop :=
  (∀ e p r, s.ephemeral e = some (p, r) →
    ∃ es, s.ephemerals p = some es ∧ es e = true) ∧
  (∀ p es e, s.ephemerals p = some es → es e = true →
    ∃ r, s.ephemeral e = some (p, r))

/-- Rust `net::types::PubSubTopic`. -/
inductive PubSubTopic
  | Blocks
  | Transactions
  deriving DecidableEq

/-- Rust `types::Command` (frontend → backend); addresses and opaque message
payloads embedded as `Nat`, announcement bytes as `List Nat`. -/
inductive Command
  | Connect (address : Nat)
  | Disconnect (peer_id : PeerId)
  | SendRequest (peer_id : PeerId) (request_id : RequestId) (message : Nat)
  | SendResponse (request_id : RequestId) (message : Nat)
  | AnnounceData (topic : PubSubTopic) (message : List Nat)
  deriving DecidableEq

/-- The `mpsc::UnboundedSender<Command>` half owned by a handle: the list
of commands delivered so far, plus whether the backend half is still
alive.  `send` on a closed channel fails and delivers nothing. -/
structure Channel where
  isOpen : Bool
  sent : List Command
  deriving DecidableEq

/-- Rust `UnboundedSender::send`, with the error converted by
`P2pError::from` into `ChannelClosed` (the propagation policy of the
error taxonomy: handle operations fail only for backend-channel
closure). -/
def Channel.send (c : Channel) (cmd : Command) : Channel × Except P2pError Unit :=
  if c.isOpen then ({ c with sent := c.sent ++ [cmd] }, .ok ())
  else (c, .error .ChannelClosed)

/-- Rust `message::Announcement` (single variant `Block`).  The serialization
codec is an external crate treated as an opaque byte codec, so the
announcement is embedded as carrying its encoded bytes. -/
inductive Announcement
  | Block (bytes : List Nat)
  deriving DecidableEq

/-- Rust `Encode::encode` of an announcement: its serialized bytes. -/
def Announcement.encode : Announcement → List Nat
  | .Block bytes => bytes

/-- Rust `ConnectivityHandle`: the command-sender half it owns. -/
structure ConnectivityHandle where
  cmd_tx : Channel
  deriving DecidableEq

/-- Rust `SyncingMessagingHandle`: the command-sender half it owns. -/
structure SyncingMessagingHandle where
  cmd_tx : Channel
  deriving DecidableEq

/-- Rust `ConnectivityHandle::connect`. -/
def ConnectivityHandle.connect (h : ConnectivityHandle) (address : Nat) :
    ConnectivityHandle × Except P2pError Unit :=
  let r := h.cmd_tx.send (.Connect address)
  (⟨r.1⟩, r.2)

/-- Rust `ConnectivityHandle::disconnect`. -/
def ConnectivityHandle.disconnect (h : ConnectivityHandle) (peer_id : PeerId) :
    ConnectivityHandle × Except P2pError Unit :=
  let r := h.cmd_tx.send (.Disconnect peer_id)
  (⟨r.1⟩, r.2)

/-- Rust `ConnectivityHandle::send_request`.  The Rust code mints the local
request ID with `RequestId::new()` (source not in the embedded tree;
Modelled from the spec: a fresh random 128-bit ID, passed here as the
argument `request_id`); on successful send it returns that ID. -/
def ConnectivityHandle.send_request (h : ConnectivityHandle) (peer_id : PeerId)
    (request_id : RequestId) (request : Nat) :
    ConnectivityHandle × Except P2pError RequestId :=
  match h.cmd_tx.send (.SendRequest peer_id request_id request) with
  | (c, .ok _) => (⟨c⟩, .ok request_id)
  | (c, .error e) => (⟨c⟩, .error e)

/-- Rust `ConnectivityHandle::send_response`. -/
def ConnectivityHandle.send_response (h : ConnectivityHandle)
    (request_id : RequestId) (response : Nat) :
    ConnectivityHandle × Except P2pError Unit :=
  let r := h.cmd_tx.send (.SendResponse request_id response)
  (⟨r.1⟩, r.2)

/-- Rust `SyncingMessagingHandle::send_request` (sync requests; same channel
discipline as the connectivity side). -/
def SyncingMessagingHandle.send_request (h : SyncingMessagingHandle)
    (peer_id : PeerId) (request_id : RequestId) (request : Nat) :
    SyncingMessagingHandle × Except P2pError RequestId :=
  match h.cmd_tx.send (.SendRequest peer_id request_id request) with
  | (c, .ok _) => (⟨c⟩, .ok request_id)
  | (c, .error e) => (⟨c⟩, .error e)

/-- Rust `SyncingMessagingHandle::send_response`. -/
def SyncingMessagingHandle.send_response (h : SyncingMessagingHandle)
    (request_id : RequestId) (response : Nat) :
    SyncingMessagingHandle × Except P2pError Unit :=
  let r := h.cmd_tx.send (.SendResponse request_id response)
  (⟨r.1⟩, r.2)

/-- Rust `SyncingMessagingHandle::make_announcement`.  `constants.rs` is not
in the embedded tree, so `ANNOUNCEMENT_MAX_SIZE` is the explicit first
argument (Modelled from the spec: `announcement_max_size` is a
recognized configuration option).  Oversized announcements are rejected
with `PublishError::MessageTooLarge(actual, max)` before any send;
otherwise an `AnnounceData` command with the encoded bytes is sent. -/
def SyncingMessagingHandle.make_announcement (ANNOUNCEMENT_MAX_SIZE : Nat)
    (h : SyncingMessagingHandle) (announcement : Announcement) :
    SyncingMessagingHandle × Except P2pError Unit :=
  let message := announcement.encode
  if message.length > ANNOUNCEMENT_MAX_SIZE then
    (h, .error (.PublishError (.MessageTooLarge message.length ANNOUNCEMENT_MAX_SIZE)))
  else
    let topic := match announcement with
      | .Block _ => PubSubTopic.Blocks
    let r := h.cmd_tx.send (.AnnounceData topic message)
    (⟨r.1⟩, r.2)

/-- Rust `types::ConnectivityEvent` (backend side); opaque fields as `Nat`. -/
inductive BackendConnectivityEvent
  | Request (peer_id : PeerId) (request_id : RequestId) (request : Nat)
  | Response (peer_id : PeerId) (request_id : RequestId) (response : Nat)
  | InboundAccepted (address : Nat) (peer_info : Nat) (receiver_address : Option Nat)
  | OutboundAccepted (address : Nat) (peer_info : Nat) (receiver_address : Option Nat)
  | ConnectionError (address : Nat) (error : Nat)
  | ConnectionClosed (peer_id : PeerId)
  | Misbehaved (peer_id : PeerId) (error : Nat)
  deriving DecidableEq

/-- Rust `net::types::ConnectivityEvent` (frontend side). -/
inductive ConnectivityEvent
  | Request (peer_id : PeerId) (request_id : RequestId) (request : Nat)
  | Response (peer_id : PeerId) (request_id : RequestId) (response : Nat)
  | InboundAccepted (address : Nat) (peer_info : Nat) (receiver_address : Option Nat)
  | OutboundAccepted (address : Nat) (peer_info : Nat) (receiver_address : Option Nat)
  | ConnectionError (address : Nat) (error : Nat)
  | ConnectionClosed (peer_id : PeerId)
  | Misbehaved (peer_id : PeerId) (error : Nat)
  deriving DecidableEq

/-- Rust `ConnectivityHandle::poll_next`: `conn_rx.recv()` yielding `none`
(channel closed) fails with `ChannelClosed`; every received event is
translated variant-by-variant and returned `Ok`. -/
def ConnectivityHandle.poll_next (recv : Option BackendConnectivityEvent) :
    Except P2pError ConnectivityEvent :=
  match recv with
  | none => .error .ChannelClosed
  | some ev =>
      .ok (match ev with
        | .Request p i q => .Request p i q
        | .Response p i q => .Response p i q
        | .InboundAccepted a pi ra => .InboundAccepted a pi ra
        | .OutboundAccepted a pi ra => .OutboundAccepted a pi ra
        | .ConnectionError a e => .ConnectionError a e
        | .ConnectionClosed p => .ConnectionClosed p
        | .Misbehaved p e => .Misbehaved p e)

/-- Rust `types::SyncingEvent` (backend side). -/
inductive BackendSyncingEvent
  | Request (peer_id : PeerId) (request_id : RequestId) (request : Nat)
  | Response (peer_id : PeerId) (request_id : RequestId) (response : Nat)
  | Announcement (peer_id : PeerId) (announcement : Nat)
  deriving DecidableEq

/-- Rust `net::types::SyncingEvent` (frontend side). -/
inductive SyncingEvent
  | Request (peer_id : PeerId) (request_id : RequestId) (request : Nat)
  | Response (peer_id : PeerId) (request_id : RequestId) (response : Nat)
  | Announcement (peer_id : PeerId) (announcement : Nat)
  deriving DecidableEq

/-- Rust `SyncingMessagingHandle::poll_next`: same discipline as the
connectivity side. -/
def SyncingMessagingHandle.poll_next (recv : Option BackendSyncingEvent) :
    Except P2pError SyncingEvent :=
  match recv with
  | none => .error .ChannelClosed
  | some ev =>
      .ok (match ev with
        | .Request p i q => .Request p i q
        | .Response p i q => .Response p i q
        | .Announcement p a => .Announcement p a)

/-- Handshake result presented by the remote peer; only the network
magic matters for the inbound-accept check. -/
structure PeerInfo where
  magic_bytes : MagicBytes
  deriving DecidableEq

/-- Modelled from the spec: `PeerManager::accept_inbound_connection` is
not in the embedded tree (only its tests are).  Per the spec, the
inbound-accept side rejects a peer whose magic bytes differ from the
local chain's with `ProtocolError::DifferentNetwork(local, remote)` —
the local magic first, the remote's second — and accepts otherwise. -/
def accept_inbound_connection (localMagic : MagicBytes) (peer_info : PeerInfo) :
    Except P2pError Unit :=
  if peer_info.magic_bytes = localMagic then .ok ()
  else .error (.ProtocolError (.DifferentNetwork localMagic peer_info.magic_bytes))

/-- Concrete state: one peer (ID 1) registered, no ephemerals. -/
def exampleState1 : RequestManager :=
  (RequestManager.new.register_peer 1).1

/-- Concrete state: peer 1 registered, ephemeral 5 mapped to the remote
pair `(1, 42)` and a member of peer 1's ephemeral set. -/
def exampleState2 : RequestManager :=
  (exampleState1.register_request 1 42 5).1

/-- Concrete state: `exampleState2` after `make_response 5`. -/
def exampleState3 : RequestManager :=
  (exampleState2.make_response 5 0).1

lemma register_peer_of_some (s : RequestManager) (p : PeerId) (es : RequestId → Bool)
    (hp : s.ephemerals p = some es) :
    s.register_peer p = (s, .error (.PeerError .PeerAlreadyExists)) := by
  simp [RequestManager.register_peer, hp]

lemma register_peer_of_none (s : RequestManager) (p : PeerId)
    (hp : s.ephemerals p = none) :
    s.register_peer p =
      ({ s with ephemerals := fun q => if q = p then some (fun _ => false) else s.ephemerals q },
       .ok ()) := by
  simp [RequestManager.register_peer, hp]

lemma unregister_peer_of_none (s : RequestManager) (p : PeerId)
    (hp : s.ephemerals p = none) :
    s.unregister_peer p = s := by
  simp [RequestManager.unregister_peer, hp]

lemma unregister_peer_of_some (s : RequestManager) (p : PeerId) (es : RequestId → Bool)
    (hp : s.ephemerals p = some es) :
    s.unregister_peer p =
      { ephemerals := fun q => if q = p then none else s.ephemerals q,
        ephemeral := fun e => if es e then none else s.ephemeral e } := by
  simp [RequestManager.unregister_peer, hp]

lemma register_request_of_none (s : RequestManager) (p : PeerId) (r f : RequestId)
    (hp : s.ephemerals p = none) :
    s.register_request p r f = (s, .error (.PeerError .PeerDoesntExist)) := by
  simp [RequestManager.register_request, hp]

lemma register_request_of_some (s : RequestManager) (p : PeerId) (r f : RequestId)
    (es : RequestId → Bool) (hp : s.ephemerals p = some es) :
    s.register_request p r f =
      ({ ephemerals := fun q =>
           if q = p then some (fun e => if e = f then true else es e) else s.ephemerals q,
         ephemeral := fun e => if e = f then some (p, r) else s.ephemeral e },
       .ok f) := by
  simp [RequestManager.register_request, hp]

lemma make_response_of_none (s : RequestManager) (e : RequestId) (resp : Nat)
    (he : s.ephemeral e = none) :
    s.make_response e resp = (s, none) := by
  simp [RequestManager.make_response, he]

lemma make_response_of_some (s : RequestManager) (e : RequestId) (resp : Nat)
    (p : PeerId) (r : RequestId) (he : s.ephemeral e = some (p, r)) :
    s.make_response e resp =
      ({ s with ephemeral := fun e' => if e' = e then none else s.ephemeral e' },
       some (p, .Response r resp)) := by
  simp [RequestManager.make_response, he]

lemma inv_register_peer (s : RequestManager) (p : PeerId) (h : Inv s) :
    Inv (s.register_peer p).1 := by
  cases hp : s.ephemerals p with
  | some es => rw [register_peer_of_some s p es hp]; exact h
  | none =>
      rw [register_peer_of_none s p hp]
      intro e q r hm
      obtain ⟨es, hes, hmem⟩ := h e q r hm
      refine ⟨es, ?_, hmem⟩
      have hq : q ≠ p := by
        intro hqp
        rw [hqp, hp] at hes
        exact Option.noConfusion hes
      simpa [hq] using hes

lemma inv_unregister_peer (s : RequestManager) (p : PeerId) (h : Inv s) :
    Inv (s.unregister_peer p) := by
  cases hp : s.ephemerals p with
  | none => rw [unregister_peer_of_none s p hp]; exact h
  | some es =>
      rw [unregister_peer_of_some s p es hp]
      intro e q r hm
      dsimp only at hm ⊢
      cases hese : es e with
      | true => rw [hese] at hm; simp at hm
      | false =>
          rw [hese] at hm
          simp only [Bool.false_eq_true, if_false] at hm
          obtain ⟨es', hes', hmem⟩ := h e q r hm
          have hq : q ≠ p := by
            intro hqp
            rw [hqp, hp] at hes'
            obtain rfl : es = es' := Option.some.inj hes'
            rw [hmem] at hese
            exact Bool.noConfusion hese
          exact ⟨es', by simpa [hq] using hes', hmem⟩

lemma inv_register_request (s : RequestManager) (p : PeerId) (r f : RequestId)
    (h : Inv s) : Inv (s.register_request p r f).1 := by
  cases hp : s.ephemerals p with
  | none => rw [register_request_of_none s p r f hp]; exact h
  | some es =>
      rw [register_request_of_some s p r f es hp]
      intro e q r' hm
      simp only at hm
      by_cases he : e = f
      · rw [if_pos he] at hm
        obtain ⟨rfl, rfl⟩ : p = q ∧ r = r' := by
          have := Option.some.inj hm
          exact ⟨congrArg Prod.fst this, congrArg Prod.snd this⟩
        refine ⟨fun e' => if e' = f then true else es e', by simp, by simp [he]⟩
      · rw [if_neg he] at hm
        obtain ⟨es', hes', hmem⟩ := h e q r' hm
        by_cases hq : q = p
        · subst hq
          obtain rfl : es = es' := Option.some.inj (hp ▸ hes')
          exact ⟨fun e' => if e' = f then true else es e', by simp, by simp [he, hmem]⟩
        · exact ⟨es', by simpa [hq] using hes', hmem⟩

lemma inv_make_request (s : RequestManager) (i : RequestId) (q : Nat) (h : Inv s) :
    Inv (s.make_request i q).1 :=
  h

lemma inv_make_response (s : RequestManager) (e : RequestId) (resp : Nat)
    (h : Inv s) : Inv (s.make_response e resp).1 := by
  cases he : s.ephemeral e with
  | none => rw [make_response_of_none s e resp he]; exact h
  | some pr =>
      rw [make_response_of_some s e resp pr.1 pr.2 (by rw [he])]
      intro e' q r' hm
      simp only at hm
      by_cases he' : e' = e
      · rw [if_pos he'] at hm; exact Option.noConfusion hm
      · rw [if_neg he'] at hm
        exact h e' q r' hm

lemma invIff_new : InvIff RequestManager.new := by
  constructor
  · intro e p r hm
    exact Option.noConfusion hm
  · intro p es e hp _
    exact Option.noConfusion hp

lemma invIff_register_peer (s : RequestManager) (p : PeerId) (h : InvIff s) :
    InvIff (s.register_peer p).1 := by
  cases hp : s.ephemerals p with
  | some es => rw [register_peer_of_some s p es hp]; exact h
  | none =>
      rw [register_peer_of_none s p hp]
      constructor
      · intro e q r hm
        obtain ⟨es, hes, hmem⟩ := h.1 e q r hm
        have hq : q ≠ p := by
          intro hqp
          rw [hqp, hp] at hes
          exact Option.noConfusion hes
        exact ⟨es, by simpa [hq] using hes, hmem⟩
      · intro q es e hq hese
        dsimp only at hq
        by_cases hqp : q = p
        · rw [if_pos hqp] at hq
          obtain rfl : (fun _ => false : RequestId → Bool) = es := Option.some.inj hq
          exact Bool.noConfusion hese
        · rw [if_neg hqp] at hq
          exact h.2 q es e hq hese

lemma invIff_unregister_peer (s : RequestManager) (p : PeerId) (h : InvIff s) :
    InvIff (s.unregister_peer p) := by
  cases hp : s.ephemerals p with
  | none => rw [unregister_peer_of_none s p hp]; exact h
  | some es =>
      rw [unregister_peer_of_some s p es hp]
      constructor
      · intro e q r hm
        dsimp only at hm ⊢
        cases hese : es e with
        | true => rw [hese] at hm; simp at hm
        | false =>
            rw [hese] at hm
            simp only [Bool.false_eq_true, if_false] at hm
            obtain ⟨es', hes', hmem⟩ := h.1 e q r hm
            have hq : q ≠ p := by
              intro hqp
              rw [hqp, hp] at hes'
              obtain rfl : es = es' := Option.some.inj hes'
              rw [hmem] at hese
              exact Bool.noConfusion hese
            exact ⟨es', by simpa [hq] using hes', hmem⟩
      · intro q es'' e hq hese
        dsimp only at hq ⊢
        by_cases hqp : q = p
        · rw [if_pos hqp] at hq
          exact Option.noConfusion hq
        · rw [if_neg hqp] at hq
          obtain ⟨r, hr⟩ := h.2 q es'' e hq hese
          have hese' : es e = false := by
            cases hese2 : es e with
            | false => rfl
            | true =>
                obtain ⟨r', hr'⟩ := h.2 p es e hp hese2
                rw [hr] at hr'
                obtain rfl : q = p := congrArg Prod.fst (Option.some.inj hr')
                exact absurd rfl hqp
          exact ⟨r, by simp [hese', hr]⟩

lemma invIff_register_request (s : RequestManager) (p : PeerId) (r f : RequestId)
    (h : InvIff s) (hf : s.ephemeral f = none) :
    InvIff (s.register_request p r f).1 := by
  cases hp : s.ephemerals p with
  | none => rw [register_request_of_none s p r f hp]; exact h
  | some es =>
      rw [register_request_of_some s p r f es hp]
      constructor
      · intro e q r' hm
        simp only at hm
        by_cases he : e = f
        · rw [if_pos he] at hm
          obtain ⟨rfl, rfl⟩ : p = q ∧ r = r' := by
            have := Option.some.inj hm
            exact ⟨congrArg Prod.fst this, congrArg Prod.snd this⟩
          exact ⟨fun e' => if e' = f then true else es e', by simp, by simp [he]⟩
        · rw [if_neg he] at hm
          obtain ⟨es', hes', hmem⟩ := h.1 e q r' hm
          by_cases hq : q = p
          · subst hq
            obtain rfl : es = es' := Option.some.inj (hp ▸ hes')
            exact ⟨fun e' => if e' = f then true else es e', by simp, by simp [he, hmem]⟩
          · exact ⟨es', by simpa [hq] using hes', hmem⟩
      · intro q es'' e hq hese
        dsimp only at hq ⊢
        by_cases hqp : q = p
        · subst hqp
          rw [if_pos rfl] at hq
          obtain rfl : (fun e' => if e' = f then true else es e') = es'' :=
            Option.some.inj hq
          by_cases he : e = f
          · exact ⟨r, by simp [he]⟩
          · have hese' : es e = true := by simpa [he] using hese
            obtain ⟨r', hr'⟩ := h.2 q es e hp hese'
            exact ⟨r', by simp [he, hr']⟩
        · rw [if_neg hqp] at hq
          obtain ⟨r', hr'⟩ := h.2 q es'' e hq hese
          have he : e ≠ f := by
            intro hef
            rw [hef, hf] at hr'
            exact Option.noConfusion hr'
          exact ⟨r', by simp [he, hr']⟩

lemma invIff_make_request (s : RequestManager) (i : RequestId) (q : Nat)
    (h : InvIff s) : InvIff (s.make_request i q).1 :=
  h

/-- Claim C1, counterexample.  The state reached by `register_peer 1`
then `register_request 1 42 5` satisfies the two-map consistency
invariant, but applying `make_response 5` to it breaks the invariant:
the ephemeral 5 is removed from the global map while remaining a member
of peer 1's ephemeral set.  So not every operation preserves the
invariant as the claim states. -/
theorem claim_C1_counterexample :
    InvIff exampleState2 ∧ ¬ InvIff exampleState3 := by
  constructor
  · exact invIff_register_request exampleState1 1 42 5
      (invIff_register_peer RequestManager.new 1 invIff_new) rfl
  · intro h
    obtain ⟨r, hr⟩ := h.2 1 (fun e => if e = 5 then true else false) 5 rfl rfl
    have hr' : (none : Option (PeerId × RequestId)) = some (1, r) := hr
    exact Option.noConfusion hr'

/-- Claim C1, amended: assuming the forward half of the invariant
(every key of the global `ephemeral` map is a member of the ephemeral
set of the peer recorded in its mapping), all five operations preserve
that forward half; the full two-way invariant is preserved by
`register_peer`, `unregister_peer`, `make_request`, and by
`register_request` when the minted ID is fresh, but not by
`make_response`, which leaves the consumed ephemeral in the peer's
set. -/
theorem claim_C1_amended :
    ∀ s : RequestManager,
      (Inv s →
        (∀ p, Inv (s.register_peer p).1) ∧
        (∀ p, Inv (s.unregister_peer p)) ∧
        (∀ p r f, Inv (s.register_request p r f).1) ∧
        (∀ i q, Inv (s.make_request i q).1) ∧
        (∀ e resp, Inv (s.make_response e resp).1)) ∧
      (InvIff s →
        (∀ p, InvIff (s.register_peer p).1) ∧
        (∀ p, InvIff (s.unregister_peer p)) ∧
        (∀ p r f, s.ephemeral f = none → InvIff (s.register_request p r f).1) ∧
        (∀ i q, InvIff (s.make_request i q).1)) := by
  intro s
  refine ⟨fun h => ⟨?_, ?_, ?_, ?_, ?_⟩, fun h => ⟨?_, ?_, ?_, ?_⟩⟩
  · exact fun p => inv_register_peer s p h
  · exact fun p => inv_unregister_peer s p h
  · exact fun p r f => inv_register_request s p r f h
  · exact fun i q => inv_make_request s i q h
  · exact fun e resp => inv_make_response s e resp h
  · exact fun p => invIff_register_peer s p h
  · exact fun p => invIff_unregister_peer s p h
  · exact fun p r f hf => invIff_register_request s p r f h hf
  · exact fun i q => invIff_make_request s i q h

/-- Claim C1, witness: the amended theorem applied at the concrete state
with peer 1 registered, for `make_response` (forward half) and
`register_peer` (full invariant). -/
theorem claim_C1_witness :
    InvIff exampleState1 ∧
    Inv (exampleState1.make_response 5 0).1 ∧
    InvIff (exampleState1.register_peer 2).1 :=
  have hIff : InvIff exampleState1 :=
    invIff_register_peer RequestManager.new 1 invIff_new
  ⟨hIff,
   ((claim_C1_amended exampleState1).1 hIff.1).2.2.2.2 5 0,
   ((claim_C1_amended exampleState1).2 hIff).1 2⟩

/-- Claim C2, counterexample.  At the concrete state where ephemeral 5
is mapped to `(peer 1, remote request 42)`, `make_response 5` returns
the correct peer and response message, but 5 is still a member of
peer 1's ephemeral set afterwards, contradicting the claim that the
ephemeral is removed from both maps. -/
theorem claim_C2_counterexample :
    (exampleState2.make_response 5 0).2 = some (1, Message.Response 42 0) ∧
    ∃ es, (exampleState2.make_response 5 0).1.ephemerals 1 = some es ∧ es 5 = true :=
  ⟨rfl, ⟨fun e => if e = 5 then true else false, rfl, rfl⟩⟩

/-- Claim C2, amended: if the ephemeral `e` is mapped to
`(p, remote_request_id)`, then `make_response e payload` removes `e`
from the global ephemeral map only (peer `p`'s ephemeral set is left
unchanged and still contains whatever it contained), leaves every other
global-map entry unchanged, and returns `some (p, m)` where `m` is a
Response message whose request ID is the remote's original
`remote_request_id`; if `e` is unmapped, it returns `none` and the
state is unchanged. -/
theorem claim_C2_amended :
    ∀ (s : RequestManager) (e : RequestId) (resp : Nat),
      (∀ p r, s.ephemeral e = some (p, r) →
        (s.make_response e resp).2 = some (p, .Response r resp) ∧
        (s.make_response e resp).1.ephemeral e = none ∧
        (∀ e', e' ≠ e → (s.make_response e resp).1.ephemeral e' = s.ephemeral e') ∧
        (s.make_response e resp).1.ephemerals = s.ephemerals) ∧
      (s.ephemeral e = none → s.make_response e resp = (s, none)) := by
  intro s e resp
  constructor
  · intro p r he
    rw [make_response_of_some s e resp p r he]
    refine ⟨rfl, by simp, fun e' he' => by simp [he'], rfl⟩
  · intro he
    exact make_response_of_none s e resp he

/-- Claim C2, witness: the amended theorem applied at the concrete
state with ephemeral 5 mapped to `(1, 42)` (mapped case) and at the
empty manager (unmapped case). -/
theorem claim_C2_witness :
    exampleState2.ephemeral 5 = some (1, 42) ∧
    (exampleState2.make_response 5 0).2 = some (1, .Response 42 0) ∧
    RequestManager.new.ephemeral 5 = none ∧
    RequestManager.new.make_response 5 0 = (RequestManager.new, none) :=
  ⟨rfl,
   (((claim_C2_amended exampleState2 5 0).1 1 42 rfl).1),
   rfl,
   ((claim_C2_amended RequestManager.new 5 0).2 rfl)⟩

/-- Claim C4: `register_request p r` fails with `PeerDoesntExist` iff
`p` is not registered; otherwise it returns the minted ephemeral ID
(modelled as the argument `fresh`, assumed not outstanding in either
map, matching the spec's fresh random minting) and records the mapping
`fresh -> (p, r)` in the global map and `fresh` in `p`'s ephemeral
set. -/
theorem claim_C4_register_request_spec :
    ∀ (s : RequestManager) (p : PeerId) (r f : RequestId),
      (((s.register_request p r f).2 = .error (.PeerError .PeerDoesntExist)) ↔
        s.ephemerals p = none) ∧
      (s.ephemeral f = none →
        (∀ q es, s.ephemerals q = some es → es f = false) →
        ∀ es, s.ephemerals p = some es →
          (s.register_request p r f).2 = .ok f ∧
          (s.register_request p r f).1.ephemeral f = some (p, r) ∧
          (∃ es', (s.register_request p r f).1.ephemerals p = some es' ∧
            es' f = true) ∧
          (∀ q, q ≠ p → (s.register_request p r f).1.ephemerals q = s.ephemerals q) ∧
          (∀ e, e ≠ f → (s.register_request p r f).1.ephemeral e = s.ephemeral e)) := by
  intro s p r f
  constructor
  · cases hp : s.ephemerals p with
    | none => rw [register_request_of_none s p r f hp]; simp
    | some es => rw [register_request_of_some s p r f es hp]; simp
  · intro _ _ es hp
    rw [register_request_of_some s p r f es hp]
    refine ⟨rfl, by simp, ⟨fun e' => if e' = f then true else es e', by simp, by simp⟩,
      fun q hq => by simp [hq, hp], fun e he => by simp [he]⟩

/-- Claim C4, witness: the theorem applied at the concrete state with
peer 1 registered (empty ephemeral set), minting ephemeral 7 for remote
request 9. -/
theorem claim_C4_witness :
    exampleState1.ephemeral 7 = none ∧
    exampleState1.ephemerals 1 = some (fun _ => false) ∧
    ((exampleState1.register_request 1 9 7).2 = .ok 7 ∧
      (exampleState1.register_request 1 9 7).1.ephemeral 7 = some (1, 9)) :=
  have hfr : ∀ q es, exampleState1.ephemerals q = some es → es 7 = false := by
    intro q es hq
    have hq' : (if q = 1 then some (fun _ => (false : Bool)) else none) = some es := hq
    by_cases h1 : q = 1
    · rw [if_pos h1] at hq'
      obtain rfl : (fun _ => false : RequestId → Bool) = es := Option.some.inj hq'
      rfl
    · rw [if_neg h1] at hq'
      exact Option.noConfusion hq'
  have happ := (claim_C4_register_request_spec exampleState1 1 9 7).2 rfl hfr
    (fun _ => false) rfl
  ⟨rfl, rfl, happ.1, happ.2.1⟩

/-- Claim C5: `unregister_peer p` removes `p`'s ephemeral set and every
ephemeral ID that set contained from the global ephemeral map, and is
idempotent: a second call with the same `p` leaves the state identical
to calling it once. -/
theorem claim_C5_unregister_peer_spec :
    ∀ (s : RequestManager) (p : PeerId),
      (s.unregister_peer p).ephemerals p = none ∧
      (∀ es, s.ephemerals p = some es →
        ∀ e, es e = true → (s.unregister_peer p).ephemeral e = none) ∧
      (s.unregister_peer p).unregister_peer p = s.unregister_peer p := by
  intro s p
  cases hp : s.ephemerals p with
  | none =>
      rw [unregister_peer_of_none s p hp]
      refine ⟨hp, ?_, unregister_peer_of_none s p hp⟩
      intro es hes
      exact Option.noConfusion hes
  | some es =>
      rw [unregister_peer_of_some s p es hp]
      refine ⟨by simp, ?_, ?_⟩
      · intro es' hes' e he
        obtain rfl : es = es' := Option.some.inj (hp ▸ hes')
        simp [he]
      · exact unregister_peer_of_none _ p (by simp)

/-- Claim C5, witness: the theorem applied at the concrete state with
peer 1 holding ephemeral 5; unregistering empties both maps and a
second call changes nothing. -/
theorem claim_C5_witness :
    exampleState2.ephemerals 1 = some (fun e => if e = 5 then true else false) ∧
    (fun e => if e = 5 then (true : Bool) else false) 5 = true ∧
    (exampleState2.unregister_peer 1).ephemeral 5 = none :=
  ⟨rfl, rfl,
   (claim_C5_unregister_peer_spec exampleState2 1).2.1
     (fun e => if e = 5 then true else false) rfl 5 rfl⟩

/-- Claim C7: `register_peer p` fails with `PeerAlreadyExists` iff `p`
already has an entry in the `ephemerals` map (and then changes
nothing); on success it inserts an empty ephemeral set for `p` and
changes nothing else. -/
theorem claim_C7_register_peer_spec :
    ∀ (s : RequestManager) (p : PeerId),
      (((s.register_peer p).2 = .error (.PeerError .PeerAlreadyExists)) ↔
        ∃ es, s.ephemerals p = some es) ∧
      ((∃ es, s.ephemerals p = some es) → (s.register_peer p).1 = s) ∧
      (s.ephemerals p = none →
        (s.register_peer p).2 = .ok () ∧
        (s.register_peer p).1.ephemerals p = some (fun _ => false) ∧
        (∀ q, q ≠ p → (s.register_peer p).1.ephemerals q = s.ephemerals q) ∧
        (s.register_peer p).1.ephemeral = s.ephemeral) := by
  intro s p
  cases hp : s.ephemerals p with
  | some es =>
      rw [register_peer_of_some s p es hp]
      refine ⟨by simp [hp], fun _ => rfl, ?_⟩
      intro hnone
      exact Option.noConfusion hnone
  | none =>
      rw [register_peer_of_none s p hp]
      exact ⟨by simp [hp], fun ⟨es, hes⟩ => Option.noConfusion hes,
        fun _ => ⟨rfl, by simp, fun q hq => by simp [hq], rfl⟩⟩

/-- Claim C7, witness: the theorem applied at the empty manager (success
case, peer 1) and at the state where peer 1 is registered (failure
case). -/
theorem claim_C7_witness :
    ((RequestManager.new.register_peer 1).2 = .ok () ∧
      (RequestManager.new.register_peer 1).1.ephemerals 1 = some (fun _ => false)) ∧
    ((exampleState1.register_peer 1).2 = .error (.PeerError .PeerAlreadyExists) ∧
      (exampleState1.register_peer 1).1 = exampleState1) :=
  have hnew := (claim_C7_register_peer_spec RequestManager.new 1).2.2 rfl
  have hdup := (claim_C7_register_peer_spec exampleState1 1).1.mpr
    ⟨fun _ => false, rfl⟩
  have hframe := (claim_C7_register_peer_spec exampleState1 1).2.1
    ⟨fun _ => false, rfl⟩
  ⟨⟨hnew.1, hnew.2.1⟩, hdup, hframe⟩

/-- Claim C9: for `q ≠ p`, `unregister_peer p` leaves `q`'s ephemeral
set unchanged and leaves every global-map entry mapping an ephemeral to
`(q, _)` unchanged, assuming the two-map consistency invariant holds
beforehand. -/
theorem claim_C9_unregister_peer_frame :
    ∀ (s : RequestManager) (p q : PeerId), q ≠ p → InvIff s →
      (s.unregister_peer p).ephemerals q = s.ephemerals q ∧
      ∀ e r, s.ephemeral e = some (q, r) →
        (s.unregister_peer p).ephemeral e = some (q, r) := by
  intro s p q hq h
  cases hp : s.ephemerals p with
  | none => rw [unregister_peer_of_none s p hp]; exact ⟨rfl, fun _ _ he => he⟩
  | some es =>
      rw [unregister_peer_of_some s p es hp]
      refine ⟨by simp [hq], ?_⟩
      intro e r he
      have hese : es e = false := by
        cases hese2 : es e with
        | false => rfl
        | true =>
            obtain ⟨r', hr'⟩ := h.2 p es e hp hese2
            rw [he] at hr'
            exact absurd (congrArg Prod.fst (Option.some.inj hr')) hq
      simp [hese, he]

/-- Claim C9, witness: the theorem applied with `p = 2`, `q = 1` at the
concrete state where peer 1 holds ephemeral 5 mapped to `(1, 42)`. -/
theorem claim_C9_witness :
    (1 : PeerId) ≠ 2 ∧ InvIff exampleState2 ∧
    ((exampleState2.unregister_peer 2).ephemerals 1 = exampleState2.ephemerals 1 ∧
      (exampleState2.unregister_peer 2).ephemeral 5 = some (1, 42)) :=
  have hIff : InvIff exampleState2 :=
    invIff_register_request exampleState1 1 42 5
      (invIff_register_peer RequestManager.new 1 invIff_new) rfl
  have happ := claim_C9_unregister_peer_frame exampleState2 2 1 (by decide) hIff
  ⟨by decide, hIff, happ.1, happ.2 5 42 rfl⟩

/-- Claim C10: the two fallible operations leave the manager state
unchanged whenever they return an error (`register_peer` on
`PeerAlreadyExists`, `register_request` on `PeerDoesntExist`). -/
theorem claim_C10_error_atomicity :
    ∀ (s : RequestManager) (p : PeerId) (r f : RequestId) (e : P2pError),
      ((s.register_peer p).2 = .error e → (s.register_peer p).1 = s) ∧
      ((s.register_request p r f).2 = .error e → (s.register_request p r f).1 = s) := by
  intro s p r f e
  constructor
  · cases hp : s.ephemerals p with
    | some es => rw [register_peer_of_some s p es hp]; exact fun _ => rfl
    | none =>
        rw [register_peer_of_none s p hp]
        intro h
        exact Except.noConfusion h
  · cases hp : s.ephemerals p with
    | none => rw [register_request_of_none s p r f hp]; exact fun _ => rfl
    | some es =>
        rw [register_request_of_some s p r f es hp]
        intro h
        exact Except.noConfusion h

/-- Claim C10, witness: the theorem applied at the concrete failing
inputs: re-registering peer 1, and registering a request for the
unknown peer 3. -/
theorem claim_C10_witness :
    (exampleState1.register_peer 1).2 = .error (.PeerError .PeerAlreadyExists) ∧
    (exampleState1.register_peer 1).1 = exampleState1 ∧
    (exampleState1.register_request 3 9 7).2 = .error (.PeerError .PeerDoesntExist) ∧
    (exampleState1.register_request 3 9 7).1 = exampleState1 :=
  ⟨rfl,
   (claim_C10_error_atomicity exampleState1 1 9 7 (.PeerError .PeerAlreadyExists)).1 rfl,
   rfl,
   (claim_C10_error_atomicity exampleState1 3 9 7 (.PeerError .PeerDoesntExist)).2 rfl⟩

lemma channel_send_error (c : Channel) (cmd : Command) (e : P2pError)
    (h : (c.send cmd).2 = .error e) : e = .ChannelClosed ∧ (c.send cmd).1 = c := by
  by_cases ho : c.isOpen
  · rw [Channel.send, if_pos ho] at h
    exact Except.noConfusion h
  · rw [Channel.send, if_neg ho] at h ⊢
    exact ⟨(Except.error.inj h).symm, rfl⟩

lemma channel_send_open (c : Channel) (cmd : Command) (ho : c.isOpen = true) :
    c.send cmd = ({ c with sent := c.sent ++ [cmd] }, .ok ()) := by
  rw [Channel.send, if_pos ho]

/-- Claim C3: `make_announcement` returns
`PublishError::MessageTooLarge(actual, max)` — with `actual` the
serialized length and `max` the size bound — exactly when the
serialized length exceeds the bound, and then no command at all is sent
toward the backend; otherwise (with the backend channel still open) an
`AnnounceData` command carrying the encoded bytes is sent. -/
theorem claim_C3_announcement_size_guard :
    ∀ (max : Nat) (h : SyncingMessagingHandle) (a : Announcement),
      (((SyncingMessagingHandle.make_announcement max h a).2 =
          .error (.PublishError (.MessageTooLarge a.encode.length max))) ↔
        a.encode.length > max) ∧
      (a.encode.length > max →
        (SyncingMessagingHandle.make_announcement max h a).1 = h) ∧
      (a.encode.length ≤ max → h.cmd_tx.isOpen = true →
        (SyncingMessagingHandle.make_announcement max h a).2 = .ok () ∧
        (SyncingMessagingHandle.make_announcement max h a).1.cmd_tx.sent =
          h.cmd_tx.sent ++ [Command.AnnounceData PubSubTopic.Blocks a.encode]) := by
  intro max h a
  by_cases hlen : a.encode.length > max
  · rw [SyncingMessagingHandle.make_announcement]
    rw [if_pos hlen]
    exact ⟨by simp [hlen], fun _ => rfl, fun hle => absurd hlen (not_lt.mpr hle)⟩
  · cases a with
    | Block bytes =>
        rw [SyncingMessagingHandle.make_announcement]
        rw [if_neg hlen]
        refine ⟨?_, fun hgt => absurd hgt hlen, ?_⟩
        · constructor
          · intro hsend
            obtain ⟨he, -⟩ := channel_send_error h.cmd_tx _ _ hsend
            exact absurd he.symm (by simp)
          · intro hgt
            exact absurd hgt hlen
        · intro _ ho
          simp [Channel.send, ho, Announcement.encode]

/-- Claim C3, witness: the theorem applied with bound 4 to an oversized
announcement of 5 bytes (rejected, handle untouched) and, on an open
channel, to a 2-byte announcement (command delivered). -/
theorem claim_C3_witness :
    (Announcement.Block [1, 2, 3, 4, 5]).encode.length > 4 ∧
    (SyncingMessagingHandle.make_announcement 4 ⟨⟨true, []⟩⟩
        (.Block [1, 2, 3, 4, 5])).1 = ⟨⟨true, []⟩⟩ ∧
    (Announcement.Block [1, 2]).encode.length ≤ 4 ∧
    (SyncingMessagingHandle.make_announcement 4 ⟨⟨true, []⟩⟩ (.Block [1, 2])).1.cmd_tx.sent =
      [Command.AnnounceData PubSubTopic.Blocks [1, 2]] :=
  ⟨by decide,
   (claim_C3_announcement_size_guard 4 ⟨⟨true, []⟩⟩ (.Block [1, 2, 3, 4, 5])).2.1 (by decide),
   by decide,
   ((claim_C3_announcement_size_guard 4 ⟨⟨true, []⟩⟩ (.Block [1, 2])).2.2 (by decide) rfl).2⟩

/-- Claim C6: when the inbound-accept side with local magic bytes `L`
is presented with different remote magic bytes, acceptance fails with
`ProtocolError::DifferentNetwork(L, R)` — local magic first, remote's
second — and the connection is not accepted. -/
theorem claim_C6_different_network :
    ∀ (localMagic : MagicBytes) (peer_info : PeerInfo),
      peer_info.magic_bytes ≠ localMagic →
      accept_inbound_connection localMagic peer_info =
        .error (.ProtocolError (.DifferentNetwork localMagic peer_info.magic_bytes)) ∧
      accept_inbound_connection localMagic peer_info ≠ .ok () := by
  intro localMagic peer_info hne
  rw [accept_inbound_connection, if_neg hne]
  exact ⟨rfl, by simp⟩

/-- Claim C6, witness: the theorem applied to the wrong-network
scenario of the test suite: acceptor magic `[1, 2, 3, 4]`, remote
mainnet magic `[0x1a, 0x2b, 0x3c, 0x4d]`. -/
theorem claim_C6_witness :
    (PeerInfo.mk (0x1a, 0x2b, 0x3c, 0x4d)).magic_bytes ≠ ((1, 2, 3, 4) : MagicBytes) ∧
    accept_inbound_connection (1, 2, 3, 4) (PeerInfo.mk (0x1a, 0x2b, 0x3c, 0x4d)) =
      .error (.ProtocolError (.DifferentNetwork (1, 2, 3, 4) (0x1a, 0x2b, 0x3c, 0x4d))) :=
  ⟨by decide,
   (claim_C6_different_network (1, 2, 3, 4) (PeerInfo.mk (0x1a, 0x2b, 0x3c, 0x4d))
     (by decide)).1⟩

/-- Claim C8: every operation of the two handles returns an error only
when the backend channel is closed (`ChannelClosed`), except that
`make_announcement` may additionally fail the pre-send size validation
with `MessageTooLarge` on an oversized announcement. -/
theorem claim_C8_handle_error_policy :
    ∀ (hc : ConnectivityHandle) (hs : SyncingMessagingHandle)
      (max address peer_id request_id msg : Nat) (a : Announcement)
      (rc : Option BackendConnectivityEvent) (rs : Option BackendSyncingEvent)
      (e : P2pError),
      ((hc.connect address).2 = .error e → e = .ChannelClosed) ∧
      ((hc.disconnect peer_id).2 = .error e → e = .ChannelClosed) ∧
      ((hc.send_request peer_id request_id msg).2 = .error e → e = .ChannelClosed) ∧
      ((hc.send_response request_id msg).2 = .error e → e = .ChannelClosed) ∧
      (ConnectivityHandle.poll_next rc = .error e → e = .ChannelClosed) ∧
      ((hs.send_request peer_id request_id msg).2 = .error e → e = .ChannelClosed) ∧
      ((hs.send_response request_id msg).2 = .error e → e = .ChannelClosed) ∧
      (SyncingMessagingHandle.poll_next rs = .error e → e = .ChannelClosed) ∧
      ((SyncingMessagingHandle.make_announcement max hs a).2 = .error e →
        e = .ChannelClosed ∨
          (e = .PublishError (.MessageTooLarge a.encode.length max) ∧
            a.encode.length > max)) := by
  intro hc hs max address peer_id request_id msg a rc rs e
  refine ⟨?_, ?_, ?_, ?_, ?_, ?_, ?_, ?_, ?_⟩
  · intro h
    exact (channel_send_error hc.cmd_tx _ e h).1
  · intro h
    exact (channel_send_error hc.cmd_tx _ e h).1
  · intro h
    rw [ConnectivityHandle.send_request] at h
    by_cases ho : hc.cmd_tx.isOpen
    · rw [channel_send_open hc.cmd_tx _ ho] at h
      have h2 : (Except.ok request_id : Except P2pError RequestId) = .error e := h
      exact Except.noConfusion h2
    · rw [Channel.send, if_neg ho] at h
      have h2 : (Except.error P2pError.ChannelClosed : Except P2pError RequestId) =
        .error e := h
      exact (Except.error.inj h2).symm
  · intro h
    exact (channel_send_error hc.cmd_tx _ e h).1
  · intro h
    cases rc with
    | none => exact (Except.error.inj h).symm
    | some ev => exact Except.noConfusion h
  · intro h
    rw [SyncingMessagingHandle.send_request] at h
    by_cases ho : hs.cmd_tx.isOpen
    · rw [channel_send_open hs.cmd_tx _ ho] at h
      have h2 : (Except.ok request_id : Except P2pError RequestId) = .error e := h
      exact Except.noConfusion h2
    · rw [Channel.send, if_neg ho] at h
      have h2 : (Except.error P2pError.ChannelClosed : Except P2pError RequestId) =
        .error e := h
      exact (Except.error.inj h2).symm
  · intro h
    exact (channel_send_error hs.cmd_tx _ e h).1
  · intro h
    cases rs with
    | none => exact (Except.error.inj h).symm
    | some ev => exact Except.noConfusion h
  · intro h
    rw [SyncingMessagingHandle.make_announcement] at h
    by_cases hlen : a.encode.length > max
    · rw [if_pos hlen] at h
      exact .inr ⟨(Except.error.inj h).symm, hlen⟩
    · rw [if_neg hlen] at h
      cases a with
      | Block bytes => exact .inl (channel_send_error hs.cmd_tx _ e h).1

/-- Claim C8, witness: the theorem applied at a closed backend channel
(`connect` fails with `ChannelClosed`) and at an exhausted event
receiver (`poll_next` fails with `ChannelClosed`). -/
theorem claim_C8_witness :
    ((ConnectivityHandle.mk ⟨false, []⟩).connect 0).2 = .error .ChannelClosed ∧
    ConnectivityHandle.poll_next none = .error .ChannelClosed ∧
    (P2pError.ChannelClosed = P2pError.ChannelClosed) :=
  ⟨rfl, rfl,
   (claim_C8_handle_error_policy ⟨⟨false, []⟩⟩ ⟨⟨false, []⟩⟩ 0 0 0 0 0
     (.Block []) none none .ChannelClosed).1 rfl⟩

end Backend
